import Mathlib

/-!
Verification of the scam-URL detector (`scam_detector.py`).

The file shallowly embeds the detector: the rule tables, the URL lexical
analyzer `analyze_url`, the content analyzer `analyze_content` (its network
fetch and HTML parse are injected capabilities, modelled by `FetchOutcome`),
and the aggregation/verdict logic of `main`.  `urlparse` is modelled after
CPython's `urllib.parse.urlparse` restricted to the fields the detector
reads (`scheme`, `netloc`, `path`), including the "Invalid IPv6 URL"
`ValueError` for mismatched brackets in the netloc (the one exception the
detector's `try` block can see from parsing).  Unicode-NFKC netloc checks
and control-character stripping of very recent CPython are omitted: no rule
table entry or claim involves such characters.
-/

set_option maxRecDepth 1000000

/-! ## String helpers (Python `str` operations, over `List Char`) -/

/-- `listStarts p l` : `l` starts with `p` (Python `str.startswith`). -/
def listStarts : List Char → List Char → Bool
  | [], _ => true
  | _ :: _, [] => false
  | a :: as, b :: bs => a == b && listStarts as bs

/-- Contiguous-substring test (Python `needle in hay`). -/
def listSub (needle : List Char) : List Char → Bool
  | [] => needle.isEmpty
  | c :: t => listStarts needle (c :: t) || listSub needle t

/-- Python `str.lower` (ASCII letters; the tables are ASCII). -/
def strLower (s : String) : String := String.mk (s.data.map Char.toLower)

/-- Python `str.startswith`. -/
def strStartsWith (s p : String) : Bool := listStarts p.data s.data

/-- Python `str.endswith`. -/
def strEndsWith (s p : String) : Bool := listStarts p.data.reverse s.data.reverse

/-- Python `p in s` for strings. -/
def strContains (s p : String) : Bool := listSub p.data s.data

/-- Python slicing `s[n:]`. -/
def strDrop (s : String) (n : Nat) : String := String.mk (s.data.drop n)

/-- Python `str.split(sep)` for a one-character separator: the result is
always non-empty and keeps empty pieces, e.g. `"a..b" → ["a", "", "b"]`. -/
def splitOnChar (sep : Char) : List Char → List (List Char)
  | [] => [[]]
  | c :: rest =>
    let r := splitOnChar sep rest
    if c == sep then [] :: r
    else
      match r with
      | h :: t => (c :: h) :: t
      | [] => [[c]]

/-- Python `".".join(pieces)`. -/
def joinDot : List (List Char) → List Char
  | [] => []
  | [x] => x
  | x :: y :: t => x ++ '.' :: joinDot (y :: t)

/-- Python slicing `l[-2:]`. -/
def lastTwo (l : List (List Char)) : List (List Char) := l.drop (l.length - 2)

/-- Python indexing `l[-1]` on the (always non-empty) result of `split`. -/
def lastPiece (l : List (List Char)) : List Char := l.getLastD []

/-! ## Levenshtein distance (the `python-Levenshtein` capability)

Wagner–Fischer, one row at a time.  `levRowAux x t prevRow e` computes the
tail of the next row: `prevRow` starts at entry `d_(j-1)`, `e` is the entry
just written to the left. -/

def levRowAux (x : Char) : List Char → List Nat → Nat → List Nat
  | y :: ys, dpr :: dj :: drest, e =>
    let ej := min (e + 1) (min (dj + 1) (dpr + (if x == y then 0 else 1)))
    ej :: levRowAux x ys (dj :: drest) ej
  | _, _, _ => []

def levDist (s t : List Char) : Nat :=
  let row0 := List.range (t.length + 1)
  let last := s.foldl
    (fun row x =>
      match row with
      | d0 :: rest => (d0 + 1) :: levRowAux x t (d0 :: rest) (d0 + 1)
      | [] => [])
    row0
  last.getLastD 0

/-- `from Levenshtein import distance as levenshtein_distance`. -/
def levenshtein_distance (a b : String) : Nat := levDist a.data b.data

/-! ## `urllib.parse.urlparse` model -/

/-- The fields of `ParseResult` the detector reads (plus the rest of the
six-tuple for faithfulness of the split). -/
structure ParseResult where
  scheme : String
  netloc : String
  path : String
  params : String
  query : String
  fragment : String
deriving Repr, DecidableEq

/-- Characters allowed in a URL scheme (`urllib.parse.scheme_chars`). -/
def schemeChar (c : Char) : Bool :=
  c.isAlphanum || c == '+' || c == '-' || c == '.'

/-- Schemes for which `urlparse` splits `;params` from the path
(`urllib.parse.uses_params`). -/
def uses_params : List String :=
  ["", "ftp", "hdl", "prospero", "http", "imap", "https", "shttp", "rtsp",
   "rtspu", "sip", "sips", "mms", "sftp", "tel"]

/-- Split off `scheme:` when the text before the first `:` is a valid
scheme (first character an ASCII letter, the rest scheme characters);
the scheme is lower-cased. -/
def splitScheme (l : List Char) : String × List Char :=
  match l.findIdx? (· == ':') with
  | some i =>
    if 0 < i ∧ (l.headD ' ').isAlpha ∧ (l.take i).all schemeChar then
      (String.mk ((l.take i).map Char.toLower), l.drop (i + 1))
    else ("", l)
  | none => ("", l)

/-- `_splitnetloc`: after a leading `//`, the netloc runs up to the first
`/`, `?` or `#` (which stays in the remainder). -/
def splitNetloc (l : List Char) : List Char × List Char :=
  let i := l.findIdx (fun c => c == '/' || c == '?' || c == '#')
  (l.take i, l.drop i)

/-- Python `url.split(sep, 1)` for a one-character separator, when the
separator occurs: the piece before the first occurrence and the piece
after it. -/
def splitOnce (sep : Char) (l : List Char) : List Char × List Char :=
  match l.findIdx? (· == sep) with
  | some i => (l.take i, l.drop (i + 1))
  | none => (l, [])

/-- `_splitparams`: split `;params` from the last path segment. -/
def splitParams (l : List Char) : List Char × List Char :=
  if l.contains '/' then
    let start := l.length - 1 - (l.reverse.findIdx (· == '/'))
    match (l.drop start).findIdx? (· == ';') with
    | some j => (l.take (start + j), l.drop (start + j + 1))
    | none => (l, [])
  else splitOnce ';' l

/-- `urllib.parse.urlparse`, as an `Except` so that the `ValueError` raised
for a netloc with mismatched square brackets is visible to the caller's
`try`/`except`. -/
def urlparseE (url : String) : Except String ParseResult := do
  let (scheme, rest) := splitScheme url.data
  let (netloc, rest) :=
    if listStarts ['/', '/'] rest then splitNetloc (rest.drop 2) else ([], rest)
  if (netloc.contains '[' && !netloc.contains ']') ||
     (netloc.contains ']' && !netloc.contains '[') then
    throw "Invalid IPv6 URL"
  let (rest, fragment) :=
    if rest.contains '#' then splitOnce '#' rest else (rest, [])
  let (rest, query) :=
    if rest.contains '?' then splitOnce '?' rest else (rest, [])
  let (path, params) :=
    if uses_params.contains scheme && rest.contains ';' then splitParams rest
    else (rest, [])
  pure ⟨scheme, String.mk netloc, String.mk path, String.mk params,
        String.mk query, String.mk fragment⟩

/-! ## Rule tables (lines 23-67 of `scam_detector.py`) -/

def KNOWN_SAFE_DOMAINS : List String :=
  ["google.com", "facebook.com", "instagram.com", "apple.com",
   "microsoft.com", "amazon.com", "gov.tw", "edu.tw", "com.tw", "org.tw",
   "net.tw", "mvdis.gov.tw", "moi.gov.tw", "mof.gov.tw", "moe.gov.tw"]

def KNOWN_PHISHING_DOMAINS : List String := ["mvdlstw.net"]

def SUSPICIOUS_TLDS : List String :=
  [".xyz", ".top", ".club", ".site", ".online", ".buzz", ".info", ".cn", ".ru"]

def SUSPICIOUS_KEYWORDS : List String :=
  ["login", "secure", "account", "update", "verify", "password", "signin",
   "banking", "confirm"]

def SCORE_WEIGHTS : String → Nat
  | "KNOWN_PHISHING" => 100
  | "IP_AS_DOMAIN" => 30
  | "NO_HTTPS" => 25
  | "SUSPICIOUS_TLD" => 20
  | "TYPOSQUATTING" => 40
  | "KEYWORD" => 5
  | "LONG_URL" => 10
  | "AT_SYMBOL" => 20
  | "PASSWORD_FIELD" => 30
  | _ => 0

/-! ## URL lexical analyzer (`analyze_url`, lines 69-138) -/

/-- Lines 76-81: lower-case the netloc, strip a leading `"www."`. -/
def normalizeDomain (netloc : String) : String :=
  let d := strLower netloc
  if strStartsWith d "www." then strDrop d 4 else d

/-- `re.match(r"\d{1,3}\.\d{1,3}\.\d{1,3}\.\d{1,3}", domain)`: `re.match`
anchors at the start only, so this holds exactly when `domain` begins with
four groups of 1-3 digits separated by dots (anything may follow). -/
def takeDigits (k : Nat) (l : List Char) : Option (List Char) :=
  if (l.take k).length == k && (l.take k).all Char.isDigit then some (l.drop k)
  else none

def takeDot (l : List Char) : Option (List Char) :=
  match l with
  | c :: r => if c == '.' then some r else none
  | [] => none

/-- Consume `k` digits then a literal dot. -/
def afterDigitsDot (k : Nat) (l : List Char) : Option (List Char) :=
  (takeDigits k l).bind takeDot

/-- The group quantifier `{1,3}` of the pattern. -/
def groupSizes : List Nat := [1, 2, 3]

def isIpQuadPrefix (l : List Char) : Bool :=
  groupSizes.any fun k1 => groupSizes.any fun k2 =>
    groupSizes.any fun k3 => groupSizes.any fun k4 =>
      ((((afterDigitsDot k1 l).bind (afterDigitsDot k2)).bind
          (afterDigitsDot k3)).bind (takeDigits k4)).isSome

/-- Following the claim's words, for comparison with the code: the host as
a whole "matches a dotted-quad numeric pattern of four groups of 1-3 digits
separated by dots" — exactly four dot-separated groups, each 1-3 digits. -/
def specDottedQuadHost (l : List Char) : Bool :=
  match splitOnChar '.' l with
  | [a, b, c, d] =>
    [a, b, c, d].all fun g =>
      decide (1 ≤ g.length) && decide (g.length ≤ 3) && g.all Char.isDigit
  | _ => false

/-- Check 2 (lines 94-97): IP literal instead of a domain name. -/
def ipCheck (domain : String) : Nat × List String :=
  if isIpQuadPrefix domain.data then
    (SCORE_WEIGHTS "IP_AS_DOMAIN", ["使用IP位址而非網域名稱"])
  else (0, [])

/-- Check 3 (lines 99-102): scheme is not `https`. -/
def httpsCheck (scheme : String) : Nat × List String :=
  if scheme ≠ "https" then
    (SCORE_WEIGHTS "NO_HTTPS", ["未使用安全的HTTPS加密連線"])
  else (0, [])

/-- Check 4 (lines 104-108): suspicious top-level domain. -/
def tldCheck (domain : String) : Nat × List String :=
  let tld := "." ++ String.mk (lastPiece (splitOnChar '.' domain.data))
  if SUSPICIOUS_TLDS.contains tld then
    (SCORE_WEIGHTS "SUSPICIOUS_TLD", ["使用可疑的頂級域名 (" ++ tld ++ ")"])
  else (0, [])

/-- `".".join(domain.split('.')[-2:])` (line 113). -/
def mainDomainPart (domain : String) : String :=
  String.mk (joinDot (lastTwo (splitOnChar '.' domain.data)))

/-- The loop condition of check 5 (line 114). -/
def isTypoNear (md sd : String) : Bool :=
  levenshtein_distance md sd == 1 || levenshtein_distance md sd == 2

/-- Check 5 (lines 110-117): typosquatting; the `for`/`break` stops at the
first safe domain at distance 1 or 2. -/
def typoCheck (domain : String) : Nat × List String :=
  match KNOWN_SAFE_DOMAINS.find? (isTypoNear (mainDomainPart domain)) with
  | some sd =>
    (SCORE_WEIGHTS "TYPOSQUATTING", ["網域可能在模仿一個已知的安全網站: " ++ sd])
  | none => (0, [])

/-- Check 6 (lines 119-123): +5 per suspicious keyword in the lowered URL. -/
def keywordCheck (url : String) : Nat × List String :=
  SUSPICIOUS_KEYWORDS.foldl
    (fun acc kw =>
      if strContains (strLower url) kw then
        (acc.1 + SCORE_WEIGHTS "KEYWORD", acc.2 ++ ["URL中包含可疑關鍵字: " ++ kw])
      else acc)
    (0, [])

/-- Check 7 (lines 125-128): URL longer than 75 characters. -/
def lengthCheck (url : String) : Nat × List String :=
  if url.length > 75 then (SCORE_WEIGHTS "LONG_URL", ["URL長度過長"])
  else (0, [])

/-- Check 8 (lines 130-133): `@` in the (raw) path component. -/
def atCheck (path : String) : Nat × List String :=
  if path.data.contains '@' then
    (SCORE_WEIGHTS "AT_SYMBOL", ["URL路徑中包含 '@' 符號"])
  else (0, [])

/-- Sequential `score += w; reasons.append(r)` accumulation. -/
def addF (a b : Nat × List String) : Nat × List String := (a.1 + b.1, a.2 ++ b.2)

/-- Checks 2-8 in source order, starting from `score = 0, reasons = []`. -/
def additiveChecks (p : ParseResult) (domain url : String) : Nat × List String :=
  addF (addF (addF (addF (addF (addF
    (ipCheck domain) (httpsCheck p.scheme)) (tldCheck domain))
    (typoCheck domain)) (keywordCheck url)) (lengthCheck url)) (atCheck p.path)

/-- The body of `analyze_url` after a successful parse (lines 76-133);
`normalizeDomain p.netloc` is the local variable `domain`. -/
def analyzeUrlParsed (p : ParseResult) (url : String) : Nat × List String :=
  if KNOWN_PHISHING_DOMAINS.contains (normalizeDomain p.netloc) then
    (SCORE_WEIGHTS "KNOWN_PHISHING",
     ["此網域在已知的詐騙黑名單中 (" ++ normalizeDomain p.netloc ++ ")"])
  else if KNOWN_SAFE_DOMAINS.any
      (fun sd => strEndsWith (normalizeDomain p.netloc) sd) then
    (0, ["此網域在已知的安全名單中"])
  else additiveChecks p (normalizeDomain p.netloc) url

/-- `analyze_url` (lines 69-138): the `except` branch (lines 135-136)
catches the parse failure, appends one reason, and returns the score
accumulated so far (still 0, since the parse is the first statement). -/
def analyze_url (url : String) : Nat × List String :=
  match urlparseE url with
  | .error e => (0, ["URL分析時發生錯誤: " ++ e])
  | .ok p => analyzeUrlParsed p url

/-! ## Content analyzer (`analyze_content`, lines 140-170)

The network fetch (`requests.get` + `raise_for_status`) and the HTML parse
(`BeautifulSoup` + `find`) are external capabilities; their combined
outcome is injected. -/

inductive FetchOutcome where
  /-- `requests.exceptions.RequestException`: transport failure or error
  HTTP status (line 165). -/
  | requestError (msg : String)
  /-- any other exception while parsing/analyzing the body (line 167). -/
  | otherError (msg : String)
  /-- successful fetch and parse; the flag records whether the document has
  an `<input type="password">` (line 156). -/
  | page (hasPasswordInput : Bool)
deriving Repr, DecidableEq

def analyze_content (o : FetchOutcome) : Nat × List String :=
  match o with
  | .page hasPw =>
    if hasPw then (SCORE_WEIGHTS "PASSWORD_FIELD", ["網頁內容包含密碼輸入欄位"])
    else (0, [])
  | .requestError e => (0, ["無法擷取網頁內容: " ++ e])
  | .otherError e => (0, ["網頁內容分析時發生錯誤: " ++ e])

/-! ## Aggregation and verdict (`main`, lines 187-209) -/

inductive Verdict where
  | SAFE
  | MODERATE
  | HIGH_RISK
deriving Repr, DecidableEq

/-- Lines 204-209: the three-tier verdict from the final score. -/
def verdictOf (final : Nat) : Verdict :=
  if final ≥ 70 then .HIGH_RISK
  else if final ≥ 40 then .MODERATE
  else .SAFE

/-- Lines 187-192: sum scores, concatenate reasons, clamp to 100. -/
def aggregate (u c : Nat × List String) : Nat × List String × Verdict :=
  let total := u.1 + c.1
  let final := min total 100
  (final, u.2 ++ c.2, verdictOf final)

/-! ## Shared lemmas -/

/-- The additive part of `analyze_url`: when the parse succeeds and neither
the blacklist nor the whitelist fires, the result is the accumulation of
checks 2-8. -/
theorem analyze_url_additive (url : String) (p : ParseResult)
    (hp : urlparseE url = Except.ok p)
    (hb : KNOWN_PHISHING_DOMAINS.contains (normalizeDomain p.netloc) = false)
    (hw : KNOWN_SAFE_DOMAINS.any
        (fun sd => strEndsWith (normalizeDomain p.netloc) sd) = false) :
    analyze_url url = additiveChecks p (normalizeDomain p.netloc) url := by
  have hb' : ¬ (KNOWN_PHISHING_DOMAINS.contains (normalizeDomain p.netloc)
      = true) := fun hc => by rw [hb] at hc; exact Bool.noConfusion hc
  have hw' : ¬ ((KNOWN_SAFE_DOMAINS.any
      (fun sd => strEndsWith (normalizeDomain p.netloc) sd)) = true) :=
    fun hc => by rw [hw] at hc; exact Bool.noConfusion hc
  unfold analyze_url
  rw [hp]
  show analyzeUrlParsed p url = _
  unfold analyzeUrlParsed
  rw [if_neg hb', if_neg hw']

theorem additiveChecks_fst (p : ParseResult) (d u : String) :
    (additiveChecks p d u).1 =
      (ipCheck d).1 + (httpsCheck p.scheme).1 + (tldCheck d).1 +
        (typoCheck d).1 + (keywordCheck u).1 + (lengthCheck u).1 +
        (atCheck p.path).1 := rfl

theorem additiveChecks_snd (p : ParseResult) (d u : String) :
    (additiveChecks p d u).2 =
      (ipCheck d).2 ++ (httpsCheck p.scheme).2 ++ (tldCheck d).2 ++
        (typoCheck d).2 ++ (keywordCheck u).2 ++ (lengthCheck u).2 ++
        (atCheck p.path).2 := rfl

/-- `List.find?` returns the first element satisfying the predicate. -/
theorem find?_append_first {α : Type} (q : α → Bool) (l1 l2 : List α) (a : α)
    (h1 : ∀ x ∈ l1, q x = false) (h2 : q a = true) :
    List.find? q (l1 ++ a :: l2) = some a := by
  induction l1 with
  | nil => simp [List.find?, h2]
  | cons b t ih =>
    have hb := h1 b (by simp)
    simp only [List.cons_append, List.find?, hb]
    exact ih fun x hx => h1 x (by simp [hx])

/-! ## C1 -/

/-- C1: for every pair of analyzer results, the aggregator computes
`total = url_score + content_score`, sets `final = min(total, 100)`
(clamping only above, so `final` is always within `[0, 100]`),
concatenates url reasons then content reasons in order, and maps `final`
to `HIGH_RISK` iff `final ≥ 70`, `MODERATE` iff `40 ≤ final < 70`, and
`SAFE` iff `final < 40`. -/
theorem C1_aggregate_clamp_and_verdict (us cs : Nat) (ur cr : List String) :
    (aggregate (us, ur) (cs, cr)).1 = min (us + cs) 100 ∧
    (aggregate (us, ur) (cs, cr)).1 ≤ 100 ∧
    (aggregate (us, ur) (cs, cr)).2.1 = ur ++ cr ∧
    ((aggregate (us, ur) (cs, cr)).2.2 = Verdict.HIGH_RISK ↔
      70 ≤ (aggregate (us, ur) (cs, cr)).1) ∧
    ((aggregate (us, ur) (cs, cr)).2.2 = Verdict.MODERATE ↔
      40 ≤ (aggregate (us, ur) (cs, cr)).1 ∧
        (aggregate (us, ur) (cs, cr)).1 < 70) ∧
    ((aggregate (us, ur) (cs, cr)).2.2 = Verdict.SAFE ↔
      (aggregate (us, ur) (cs, cr)).1 < 40) := by
  refine ⟨rfl, Nat.min_le_right _ _, rfl, ?_, ?_, ?_⟩
  all_goals simp only [aggregate, verdictOf]
  all_goals split_ifs <;> simp_all <;> omega

/-! ## C2 -/

/-- C2: a URL whose normalized host (lower-cased netloc, leading `"www."`
stripped) is in the phishing blacklist makes the lexical analyzer return
score 100 with exactly one reason; no other lexical rule contributes. -/
theorem C2_blacklist_short_circuit (url : String) (p : ParseResult)
    (hp : urlparseE url = Except.ok p)
    (hb : KNOWN_PHISHING_DOMAINS.contains (normalizeDomain p.netloc) = true) :
    analyze_url url =
      (100, ["此網域在已知的詐騙黑名單中 (" ++ normalizeDomain p.netloc ++ ")"]) := by
  unfold analyze_url
  rw [hp]
  show analyzeUrlParsed p url = _
  unfold analyzeUrlParsed
  rw [if_pos hb]
  simp [SCORE_WEIGHTS]

theorem C2_blacklist_short_circuit_witness :
    urlparseE "http://mvdlstw.net/verify" =
      Except.ok ⟨"http", "mvdlstw.net", "/verify", "", "", ""⟩ ∧
    KNOWN_PHISHING_DOMAINS.contains (normalizeDomain "mvdlstw.net") = true ∧
    analyze_url "http://mvdlstw.net/verify" =
      (100, ["此網域在已知的詐騙黑名單中 (mvdlstw.net)"]) := by
  refine ⟨rfl, rfl, ?_⟩
  exact (C2_blacklist_short_circuit "http://mvdlstw.net/verify"
    ⟨"http", "mvdlstw.net", "/verify", "", "", ""⟩ rfl rfl).trans rfl

/-! ## C3 -/

/-- C3: a URL that misses the phishing blacklist and whose normalized host
ends with some safe-domain entry (plain `endswith`, no label-boundary
requirement, so a host such as `"evilcom.tw"` qualifies for the entry
`"com.tw"`) makes the lexical analyzer return score 0 with exactly one
trusted reason and evaluate no other rule; and the blacklist is checked
first: a blacklisted host returns the blacklist result even if it also
ends with a safe-domain entry. -/
theorem C3_whitelist_suffix_short_circuit (url : String) (p : ParseResult)
    (hp : urlparseE url = Except.ok p) :
    (KNOWN_PHISHING_DOMAINS.contains (normalizeDomain p.netloc) = false →
      KNOWN_SAFE_DOMAINS.any
        (fun sd => strEndsWith (normalizeDomain p.netloc) sd) = true →
      analyze_url url = (0, ["此網域在已知的安全名單中"])) ∧
    (KNOWN_PHISHING_DOMAINS.contains (normalizeDomain p.netloc) = true →
      analyze_url url =
        (100, ["此網域在已知的詐騙黑名單中 (" ++ normalizeDomain p.netloc ++ ")"])) := by
  constructor
  · intro hb hw
    have hb' : ¬ (KNOWN_PHISHING_DOMAINS.contains (normalizeDomain p.netloc)
        = true) := fun hc => by rw [hb] at hc; exact Bool.noConfusion hc
    unfold analyze_url
    rw [hp]
    show analyzeUrlParsed p url = _
    unfold analyzeUrlParsed
    rw [if_neg hb', if_pos hw]
  · intro hb
    unfold analyze_url
    rw [hp]
    show analyzeUrlParsed p url = _
    unfold analyzeUrlParsed
    rw [if_pos hb]
    simp [SCORE_WEIGHTS]

theorem C3_whitelist_suffix_short_circuit_witness :
    urlparseE "http://evilcom.tw/x" =
      Except.ok ⟨"http", "evilcom.tw", "/x", "", "", ""⟩ ∧
    KNOWN_PHISHING_DOMAINS.contains (normalizeDomain "evilcom.tw") = false ∧
    strEndsWith (normalizeDomain "evilcom.tw") "com.tw" = true ∧
    KNOWN_SAFE_DOMAINS.any
      (fun sd => strEndsWith (normalizeDomain "evilcom.tw") sd) = true ∧
    analyze_url "http://evilcom.tw/x" = (0, ["此網域在已知的安全名單中"]) := by
  refine ⟨rfl, rfl, rfl, rfl, ?_⟩
  exact (C3_whitelist_suffix_short_circuit "http://evilcom.tw/x"
    ⟨"http", "evilcom.tw", "/x", "", "", ""⟩ rfl).1 rfl rfl

/-! ## C7 -/

/-- C7: neither analyzer raises to its caller.  A parse failure inside the
URL lexical analyzer is caught and becomes a reason string with the score
accumulated before the failure (0, since parsing is the first step); a
fetch transport failure / HTTP error status, and any other parse failure,
make the content analyzer return score exactly 0 with a single reason
describing the failure. -/
theorem C7_error_recovery (url e msg : String)
    (hu : urlparseE url = Except.error e) :
    analyze_url url = (0, ["URL分析時發生錯誤: " ++ e]) ∧
    analyze_content (FetchOutcome.requestError msg) =
      (0, ["無法擷取網頁內容: " ++ msg]) ∧
    analyze_content (FetchOutcome.otherError msg) =
      (0, ["網頁內容分析時發生錯誤: " ++ msg]) := by
  refine ⟨?_, rfl, rfl⟩
  unfold analyze_url
  rw [hu]

theorem C7_error_recovery_witness :
    urlparseE "http://[x.com.tw/" = Except.error "Invalid IPv6 URL" ∧
    analyze_url "http://[x.com.tw/" =
      (0, ["URL分析時發生錯誤: Invalid IPv6 URL"]) ∧
    analyze_content (FetchOutcome.requestError "Connection timed out") =
      (0, ["無法擷取網頁內容: Connection timed out"]) := by
  refine ⟨rfl, ?_, ?_⟩
  · exact ((C7_error_recovery "http://[x.com.tw/" "Invalid IPv6 URL"
      "Connection timed out" rfl).1).trans rfl
  · exact (C7_error_recovery "http://[x.com.tw/" "Invalid IPv6 URL"
      "Connection timed out" rfl).2.1

/-! ## C8 -/

/-- C8: the URL lexical analyzer is deterministic and pure with respect to
its fixed rule tables: the embedding threads no state (the Python function
reads only the constant tables and mutates nothing), so two calls on the
same URL string return identical `(score, reasons)` pairs. -/
theorem C8_analyze_url_deterministic (u1 u2 : String) (h : u1 = u2) :
    analyze_url u1 = analyze_url u2 := by rw [h]

theorem C8_analyze_url_deterministic_witness :
    ("http://mvdlstw.net/verify" : String) = "http://mvdlstw.net/verify" ∧
    analyze_url "http://mvdlstw.net/verify" =
      analyze_url "http://mvdlstw.net/verify" :=
  ⟨rfl, C8_analyze_url_deterministic "http://mvdlstw.net/verify"
    "http://mvdlstw.net/verify" rfl⟩

/-! ## C9 -/

/-- C9: the blacklist (and the other host comparisons) use the full
lower-cased network-location, ports and userinfo included: for
`"http://mvdlstw.net:80/"` and `"http://a@mvdlstw.net/"` the normalized
host keeps the `":80"` / `"a@"` part, so it no longer equals the
blacklisted `"mvdlstw.net"` (which is in the phishing table), the
blacklist rule does not fire, and the analyzer returns 25 (no-HTTPS only),
not 100. -/
theorem C9_full_netloc_comparison :
    KNOWN_PHISHING_DOMAINS.contains "mvdlstw.net" = true ∧
    (urlparseE "http://mvdlstw.net:80/").toOption.map ParseResult.netloc =
      some "mvdlstw.net:80" ∧
    normalizeDomain "mvdlstw.net:80" = "mvdlstw.net:80" ∧
    KNOWN_PHISHING_DOMAINS.contains "mvdlstw.net:80" = false ∧
    analyze_url "http://mvdlstw.net:80/" = (25, ["未使用安全的HTTPS加密連線"]) ∧
    (urlparseE "http://a@mvdlstw.net/").toOption.map ParseResult.netloc =
      some "a@mvdlstw.net" ∧
    normalizeDomain "a@mvdlstw.net" = "a@mvdlstw.net" ∧
    KNOWN_PHISHING_DOMAINS.contains "a@mvdlstw.net" = false ∧
    analyze_url "http://a@mvdlstw.net/" = (25, ["未使用安全的HTTPS加密連線"]) ∧
    (analyze_url "http://mvdlstw.net:80/").1 ≠ 100 ∧
    (analyze_url "http://a@mvdlstw.net/").1 ≠ 100 := by
  refine ⟨rfl, rfl, rfl, rfl, rfl, rfl, rfl, rfl, rfl, ?_, ?_⟩ <;> decide

/-! ## C10 -/

/-- C10: the per-analyzer score is not bounded by 100: one URL (dotted-quad
host, plain http, every suspicious keyword, length over 75, `@` in the
path) makes the URL lexical analyzer alone return 130; only the
aggregator's `min(total, 100)` bounds the observable final score. -/
theorem C10_url_score_exceeds_clamp :
    (analyze_url "http://1.2.3.4/login-secure-account-update-verify-password-signin-banking-confirm-aaaa@bbbb").1 = 130 ∧
    100 < (analyze_url "http://1.2.3.4/login-secure-account-update-verify-password-signin-banking-confirm-aaaa@bbbb").1 ∧
    (∀ c : Nat × List String,
      (aggregate (analyze_url "http://1.2.3.4/login-secure-account-update-verify-password-signin-banking-confirm-aaaa@bbbb") c).1 = 100) ∧
    (∀ u c : Nat × List String, (aggregate u c).1 ≤ 100) := by
  have h : (analyze_url "http://1.2.3.4/login-secure-account-update-verify-password-signin-banking-confirm-aaaa@bbbb").1 = 130 := by decide
  refine ⟨h, by omega, fun c => ?_, fun u c => Nat.min_le_right _ _⟩
  simp only [aggregate, h]
  omega

/-! ## C6 -/

/-- The keyword loop, summed out: from any accumulator, the fold adds the
keyword weight once per matching keyword and appends the matching reasons
in keyword-list order. -/
theorem keyword_foldl (url : String) (ks : List String)
    (acc : Nat × List String) :
    ks.foldl
      (fun acc kw =>
        if strContains (strLower url) kw then
          (acc.1 + SCORE_WEIGHTS "KEYWORD",
           acc.2 ++ ["URL中包含可疑關鍵字: " ++ kw])
        else acc)
      acc
    = (acc.1 + 5 * (ks.filter (strContains (strLower url))).length,
       acc.2 ++ (ks.filter (strContains (strLower url))).map
         (fun kw => "URL中包含可疑關鍵字: " ++ kw)) := by
  induction ks generalizing acc with
  | nil => simp
  | cons k t ih =>
    rw [List.foldl_cons]
    by_cases hk : strContains (strLower url) k = true
    · rw [if_pos hk, ih, List.filter_cons_of_pos hk]
      refine Prod.ext ?_ ?_
      · show acc.1 + SCORE_WEIGHTS "KEYWORD" + 5 * _ = acc.1 + 5 * _
        simp only [List.length_cons, SCORE_WEIGHTS]
        omega
      · simp
    · rw [if_neg hk, ih, List.filter_cons_of_neg hk]

theorem keywordCheck_eq (url : String) :
    keywordCheck url =
      (5 * (SUSPICIOUS_KEYWORDS.filter
          (strContains (strLower url))).length,
       (SUSPICIOUS_KEYWORDS.filter
          (strContains (strLower url))).map
         (fun kw => "URL中包含可疑關鍵字: " ++ kw)) := by
  unfold keywordCheck
  rw [keyword_foldl]
  simp

/-- Left cancellation for string concatenation. -/
theorem strAppend_left_cancel {s a b : String} (h : s ++ a = s ++ b) :
    a = b := by
  apply String.ext
  have hd : s.data ++ a.data = s.data ++ b.data := by
    rw [← String.data_append, ← String.data_append, h]
  exact List.append_cancel_left hd

/-- C6: for a URL reaching the additive rules, the keyword rule adds
exactly +5 and one distinct reason per suspicious-keyword entry occurring
(case-insensitively) in the full URL, with no cap, reasons in keyword-list
order; when exactly `"login"` and `"secure"` match, the rule contributes
exactly +10 with those two reason strings. -/
theorem C6_keyword_accumulation (url : String) (p : ParseResult)
    (hp : urlparseE url = Except.ok p)
    (hb : KNOWN_PHISHING_DOMAINS.contains (normalizeDomain p.netloc) = false)
    (hw : KNOWN_SAFE_DOMAINS.any
        (fun sd => strEndsWith (normalizeDomain p.netloc) sd) = false) :
    keywordCheck url =
      (5 * (SUSPICIOUS_KEYWORDS.filter
          (strContains (strLower url))).length,
       (SUSPICIOUS_KEYWORDS.filter
          (strContains (strLower url))).map
         (fun kw => "URL中包含可疑關鍵字: " ++ kw)) ∧
    ((SUSPICIOUS_KEYWORDS.filter
        (strContains (strLower url))).map
       (fun kw => "URL中包含可疑關鍵字: " ++ kw)).Nodup ∧
    (analyze_url url).1 =
      (ipCheck (normalizeDomain p.netloc)).1 + (httpsCheck p.scheme).1 +
        (tldCheck (normalizeDomain p.netloc)).1 +
        (typoCheck (normalizeDomain p.netloc)).1 +
        5 * (SUSPICIOUS_KEYWORDS.filter
            (strContains (strLower url))).length +
        (lengthCheck url).1 + (atCheck p.path).1 ∧
    (SUSPICIOUS_KEYWORDS.filter (strContains (strLower url))
        = ["login", "secure"] →
      keywordCheck url =
        (10, ["URL中包含可疑關鍵字: login", "URL中包含可疑關鍵字: secure"])) := by
  refine ⟨keywordCheck_eq url, ?_, ?_, ?_⟩
  · have hnd : SUSPICIOUS_KEYWORDS.Nodup := by decide
    refine List.Nodup.map ?_ (hnd.filter _)
    intro a b hab
    exact strAppend_left_cancel hab
  · rw [analyze_url_additive url p hp hb hw, additiveChecks_fst,
      keywordCheck_eq]
  · intro hm
    rw [keywordCheck_eq, hm]
    rfl

theorem C6_keyword_accumulation_witness :
    urlparseE "http://zzz.qq/login-secure" =
      Except.ok ⟨"http", "zzz.qq", "/login-secure", "", "", ""⟩ ∧
    KNOWN_PHISHING_DOMAINS.contains (normalizeDomain "zzz.qq") = false ∧
    KNOWN_SAFE_DOMAINS.any
      (fun sd => strEndsWith (normalizeDomain "zzz.qq") sd) = false ∧
    SUSPICIOUS_KEYWORDS.filter
      (strContains (strLower "http://zzz.qq/login-secure"))
      = ["login", "secure"] ∧
    keywordCheck "http://zzz.qq/login-secure" =
      (10, ["URL中包含可疑關鍵字: login", "URL中包含可疑關鍵字: secure"]) := by
  refine ⟨rfl, rfl, rfl, by decide, ?_⟩
  exact (C6_keyword_accumulation "http://zzz.qq/login-secure"
    ⟨"http", "zzz.qq", "/login-secure", "", "", ""⟩ rfl rfl rfl).2.2.2 (by decide)

/-! ## C4 -/

/-- C4: for a URL reaching the additive rules, the typosquatting rule adds
exactly +40 and exactly one reason when some safe-domain entry is at
Levenshtein distance 1 or 2 from the main domain (last two dot-separated
labels of the host), stopping at the first such entry in safe-domain-list
order (so at most +40 even if several entries are near); it adds nothing
when no entry is at distance 1 or 2. -/
theorem C4_typosquat_first_match (url : String) (p : ParseResult)
    (hp : urlparseE url = Except.ok p)
    (hb : KNOWN_PHISHING_DOMAINS.contains (normalizeDomain p.netloc) = false)
    (hw : KNOWN_SAFE_DOMAINS.any
        (fun sd => strEndsWith (normalizeDomain p.netloc) sd) = false) :
    (analyze_url url).1 =
      (ipCheck (normalizeDomain p.netloc)).1 + (httpsCheck p.scheme).1 +
        (tldCheck (normalizeDomain p.netloc)).1 +
        (typoCheck (normalizeDomain p.netloc)).1 +
        (keywordCheck url).1 + (lengthCheck url).1 + (atCheck p.path).1 ∧
    (∀ l1 sd l2, KNOWN_SAFE_DOMAINS = l1 ++ sd :: l2 →
      (∀ x ∈ l1,
        isTypoNear (mainDomainPart (normalizeDomain p.netloc)) x = false) →
      isTypoNear (mainDomainPart (normalizeDomain p.netloc)) sd = true →
      typoCheck (normalizeDomain p.netloc) =
        (40, ["網域可能在模仿一個已知的安全網站: " ++ sd])) ∧
    ((∀ x ∈ KNOWN_SAFE_DOMAINS,
        isTypoNear (mainDomainPart (normalizeDomain p.netloc)) x = false) →
      typoCheck (normalizeDomain p.netloc) = (0, [])) ∧
    (∀ sd : String,
      isTypoNear (mainDomainPart (normalizeDomain p.netloc)) sd = true ↔
        levenshtein_distance (mainDomainPart (normalizeDomain p.netloc)) sd
            = 1 ∨
          levenshtein_distance (mainDomainPart (normalizeDomain p.netloc)) sd
            = 2) := by
  refine ⟨?_, ?_, ?_, ?_⟩
  · rw [analyze_url_additive url p hp hb hw, additiveChecks_fst]
  · intro l1 sd l2 heq h1 h2
    unfold typoCheck
    rw [heq, find?_append_first _ l1 l2 sd h1 h2]
    simp [SCORE_WEIGHTS]
  · intro hall
    unfold typoCheck
    rw [List.find?_eq_none.mpr
      (fun x hx hc => by rw [hall x hx] at hc; exact Bool.noConfusion hc)]
  · intro sd
    unfold isTypoNear
    simp

theorem C4_typosquat_first_match_witness :
    urlparseE "http://googlle.com/" =
      Except.ok ⟨"http", "googlle.com", "/", "", "", ""⟩ ∧
    KNOWN_PHISHING_DOMAINS.contains (normalizeDomain "googlle.com") = false ∧
    KNOWN_SAFE_DOMAINS.any
      (fun sd => strEndsWith (normalizeDomain "googlle.com") sd) = false ∧
    levenshtein_distance (mainDomainPart (normalizeDomain "googlle.com"))
      "google.com" = 1 ∧
    typoCheck (normalizeDomain "googlle.com") =
      (40, ["網域可能在模仿一個已知的安全網站: google.com"]) ∧
    analyze_url "http://googlle.com/" =
      (65, ["未使用安全的HTTPS加密連線",
            "網域可能在模仿一個已知的安全網站: google.com"]) := by
  refine ⟨rfl, rfl, rfl, by decide, ?_, by decide⟩
  exact (C4_typosquat_first_match "http://googlle.com/"
      ⟨"http", "googlle.com", "/", "", "", ""⟩ rfl rfl rfl).2.1
    [] "google.com"
    ["facebook.com", "instagram.com", "apple.com", "microsoft.com",
     "amazon.com", "gov.tw", "edu.tw", "com.tw", "org.tw", "net.tw",
     "mvdis.gov.tw", "moi.gov.tw", "mof.gov.tw", "moe.gov.tw"]
    rfl (by simp) (by decide)

/-! ## C5 -/

theorem takeDigits_eq_some (k : Nat) (l r : List Char) :
    takeDigits k l = some r ↔
      ∃ g, l = g ++ r ∧ g.length = k ∧ ∀ c ∈ g, c.isDigit = true := by
  constructor
  · intro hr
    unfold takeDigits at hr
    by_cases h : ((l.take k).length == k && (l.take k).all Char.isDigit) = true
    · rw [if_pos h] at hr
      have hdr : l.drop k = r := Option.some.inj hr
      obtain ⟨h1, h2⟩ := Bool.and_eq_true_iff.mp h
      refine ⟨l.take k, ?_, beq_iff_eq.mp h1, fun c hc => ?_⟩
      · rw [← hdr]
        exact (List.take_append_drop k l).symm
      · exact List.all_eq_true.mp h2 c hc
    · rw [if_neg h] at hr
      exact Option.noConfusion hr
  · rintro ⟨g, rfl, hk, hdig⟩
    unfold takeDigits
    have ht : (g ++ r).take k = g := List.take_left' hk
    have hcond : (((g ++ r).take k).length == k &&
        ((g ++ r).take k).all Char.isDigit) = true := by
      rw [ht]
      exact Bool.and_eq_true_iff.mpr
        ⟨beq_iff_eq.mpr hk, List.all_eq_true.mpr hdig⟩
    rw [if_pos hcond, List.drop_left' hk]

theorem takeDot_eq_some (l r : List Char) :
    takeDot l = some r ↔ l = '.' :: r := by
  unfold takeDot
  cases l with
  | nil => simp
  | cons c t =>
    by_cases hc : c = '.'
    · subst hc
      simp
    · show (if (c == '.') = true then some t else none) = some r ↔
        c :: t = '.' :: r
      rw [if_neg (by simpa using hc)]
      simp [hc]

theorem afterDigitsDot_eq_some (k : Nat) (l r : List Char) :
    afterDigitsDot k l = some r ↔
      ∃ g, l = g ++ '.' :: r ∧ g.length = k ∧ ∀ c ∈ g, c.isDigit = true := by
  unfold afterDigitsDot
  rw [Option.bind_eq_some]
  constructor
  · rintro ⟨m, hm, hdot⟩
    rw [takeDot_eq_some] at hdot
    subst hdot
    exact (takeDigits_eq_some k l _).mp hm
  · rintro ⟨g, hg, hk, hdig⟩
    exact ⟨'.' :: r, (takeDigits_eq_some k l _).mpr ⟨g, hg, hk, hdig⟩,
      (takeDot_eq_some _ _).mpr rfl⟩

/-- The four-group consume chain of `isIpQuadPrefix`, characterized. -/
theorem quadChain_isSome (k1 k2 k3 k4 : Nat) (l : List Char) :
    ((((afterDigitsDot k1 l).bind (afterDigitsDot k2)).bind
        (afterDigitsDot k3)).bind (takeDigits k4)).isSome = true ↔
      ∃ g1 g2 g3 g4 r,
        l = g1 ++ '.' :: (g2 ++ '.' :: (g3 ++ '.' :: (g4 ++ r))) ∧
        g1.length = k1 ∧ g2.length = k2 ∧ g3.length = k3 ∧ g4.length = k4 ∧
        (∀ c ∈ g1, c.isDigit = true) ∧ (∀ c ∈ g2, c.isDigit = true) ∧
        (∀ c ∈ g3, c.isDigit = true) ∧ (∀ c ∈ g4, c.isDigit = true) := by
  rw [Option.isSome_iff_exists]
  constructor
  · rintro ⟨res, hres⟩
    rw [Option.bind_eq_some] at hres
    obtain ⟨m3, hm3, h4⟩ := hres
    rw [Option.bind_eq_some] at hm3
    obtain ⟨m2, hm2, h3⟩ := hm3
    rw [Option.bind_eq_some] at hm2
    obtain ⟨m1, hm1, h2⟩ := hm2
    obtain ⟨g1, rfl, hl1, hd1⟩ := (afterDigitsDot_eq_some _ _ _).mp hm1
    obtain ⟨g2, rfl, hl2, hd2⟩ := (afterDigitsDot_eq_some _ _ _).mp h2
    obtain ⟨g3, rfl, hl3, hd3⟩ := (afterDigitsDot_eq_some _ _ _).mp h3
    obtain ⟨g4, rfl, hl4, hd4⟩ := (takeDigits_eq_some _ _ _).mp h4
    exact ⟨g1, g2, g3, g4, res, rfl, hl1, hl2, hl3, hl4, hd1, hd2, hd3, hd4⟩
  · rintro ⟨g1, g2, g3, g4, r, rfl, hl1, hl2, hl3, hl4, hd1, hd2, hd3, hd4⟩
    refine ⟨r, ?_⟩
    rw [Option.bind_eq_some]
    refine ⟨g4 ++ r, ?_, (takeDigits_eq_some _ _ _).mpr ⟨g4, rfl, hl4, hd4⟩⟩
    rw [Option.bind_eq_some]
    refine ⟨g3 ++ '.' :: (g4 ++ r), ?_,
      (afterDigitsDot_eq_some _ _ _).mpr ⟨g3, rfl, hl3, hd3⟩⟩
    rw [Option.bind_eq_some]
    exact ⟨g2 ++ '.' :: (g3 ++ '.' :: (g4 ++ r)),
      (afterDigitsDot_eq_some _ _ _).mpr ⟨g1, rfl, hl1, hd1⟩,
      (afterDigitsDot_eq_some _ _ _).mpr ⟨g2, rfl, hl2, hd2⟩⟩

/-- `isIpQuadPrefix` holds exactly when the host begins with four groups of
1-3 digits separated by dots, with arbitrary trailing characters. -/
theorem isIpQuadPrefix_iff (l : List Char) :
    isIpQuadPrefix l = true ↔
      ∃ g1 g2 g3 g4 r,
        l = g1 ++ '.' :: (g2 ++ '.' :: (g3 ++ '.' :: (g4 ++ r))) ∧
        (1 ≤ g1.length ∧ g1.length ≤ 3 ∧ ∀ c ∈ g1, c.isDigit = true) ∧
        (1 ≤ g2.length ∧ g2.length ≤ 3 ∧ ∀ c ∈ g2, c.isDigit = true) ∧
        (1 ≤ g3.length ∧ g3.length ≤ 3 ∧ ∀ c ∈ g3, c.isDigit = true) ∧
        (1 ≤ g4.length ∧ g4.length ≤ 3 ∧ ∀ c ∈ g4, c.isDigit = true) := by
  unfold isIpQuadPrefix
  simp only [groupSizes, List.any_eq_true]
  constructor
  · rintro ⟨k1, hk1, k2, hk2, k3, hk3, k4, hk4, hchain⟩
    obtain ⟨g1, g2, g3, g4, r, hl, h1, h2, h3, h4, d1, d2, d3, d4⟩ :=
      (quadChain_isSome k1 k2 k3 k4 l).mp hchain
    simp only [List.mem_cons, List.not_mem_nil, or_false] at hk1 hk2 hk3 hk4
    refine ⟨g1, g2, g3, g4, r, hl, ⟨?_, ?_, d1⟩, ⟨?_, ?_, d2⟩,
      ⟨?_, ?_, d3⟩, ⟨?_, ?_, d4⟩⟩ <;> omega
  · rintro ⟨g1, g2, g3, g4, r, hl, ⟨a1, b1, d1⟩, ⟨a2, b2, d2⟩,
      ⟨a3, b3, d3⟩, ⟨a4, b4, d4⟩⟩
    refine ⟨g1.length, ?_, g2.length, ?_, g3.length, ?_, g4.length, ?_, ?_⟩
    · simp only [List.mem_cons, List.not_mem_nil, or_false]; omega
    · simp only [List.mem_cons, List.not_mem_nil, or_false]; omega
    · simp only [List.mem_cons, List.not_mem_nil, or_false]; omega
    · simp only [List.mem_cons, List.not_mem_nil, or_false]; omega
    · exact (quadChain_isSome _ _ _ _ _).mpr
        ⟨g1, g2, g3, g4, r, hl, rfl, rfl, rfl, rfl, d1, d2, d3, d4⟩

/-- C5 counterexample: the host `"1.2.3.4.5"` does not match the claimed
dotted-quad pattern as a whole (it has five groups, cf.
`specDottedQuadHost`), the URL reaches the additive rules, and yet the
IP-literal rule adds +30 — because `re.match` only anchors at the start of
the host. -/
theorem C5_counterexample_extra_group :
    urlparseE "http://1.2.3.4.5/" =
      Except.ok ⟨"http", "1.2.3.4.5", "/", "", "", ""⟩ ∧
    KNOWN_PHISHING_DOMAINS.contains (normalizeDomain "1.2.3.4.5") = false ∧
    KNOWN_SAFE_DOMAINS.any
      (fun sd => strEndsWith (normalizeDomain "1.2.3.4.5") sd) = false ∧
    specDottedQuadHost (normalizeDomain "1.2.3.4.5").data = false ∧
    ipCheck (normalizeDomain "1.2.3.4.5") = (30, ["使用IP位址而非網域名稱"]) ∧
    analyze_url "http://1.2.3.4.5/" =
      (55, ["使用IP位址而非網域名稱", "未使用安全的HTTPS加密連線"]) := by
  exact ⟨rfl, rfl, rfl, by decide, by decide, by decide⟩

/-- C5 (amended): for a URL reaching the additive rules, the IP-literal
rule adds +30 with exactly one reason exactly when the normalized host
BEGINS WITH four groups of 1-3 digits separated by dots (`re.match`
anchors only at the start, so arbitrary trailing characters are allowed;
no 0-255 bounds validation), and adds nothing otherwise. -/
theorem C5_amended_ip_rule_prefix_match (url : String) (p : ParseResult)
    (hp : urlparseE url = Except.ok p)
    (hb : KNOWN_PHISHING_DOMAINS.contains (normalizeDomain p.netloc) = false)
    (hw : KNOWN_SAFE_DOMAINS.any
        (fun sd => strEndsWith (normalizeDomain p.netloc) sd) = false) :
    (ipCheck (normalizeDomain p.netloc) = (30, ["使用IP位址而非網域名稱"]) ↔
      ∃ g1 g2 g3 g4 r,
        (normalizeDomain p.netloc).data =
          g1 ++ '.' :: (g2 ++ '.' :: (g3 ++ '.' :: (g4 ++ r))) ∧
        (1 ≤ g1.length ∧ g1.length ≤ 3 ∧ ∀ c ∈ g1, c.isDigit = true) ∧
        (1 ≤ g2.length ∧ g2.length ≤ 3 ∧ ∀ c ∈ g2, c.isDigit = true) ∧
        (1 ≤ g3.length ∧ g3.length ≤ 3 ∧ ∀ c ∈ g3, c.isDigit = true) ∧
        (1 ≤ g4.length ∧ g4.length ≤ 3 ∧ ∀ c ∈ g4, c.isDigit = true)) ∧
    (ipCheck (normalizeDomain p.netloc) = (30, ["使用IP位址而非網域名稱"]) ∨
      ipCheck (normalizeDomain p.netloc) = (0, [])) ∧
    (analyze_url url).1 =
      (ipCheck (normalizeDomain p.netloc)).1 + (httpsCheck p.scheme).1 +
        (tldCheck (normalizeDomain p.netloc)).1 +
        (typoCheck (normalizeDomain p.netloc)).1 +
        (keywordCheck url).1 + (lengthCheck url).1 + (atCheck p.path).1 := by
  refine ⟨?_, ?_, ?_⟩
  · rw [← isIpQuadPrefix_iff]
    unfold ipCheck
    by_cases h : isIpQuadPrefix (normalizeDomain p.netloc).data = true
    · rw [if_pos h]
      simp [SCORE_WEIGHTS, h]
    · rw [if_neg h]
      simp [h]
  · unfold ipCheck
    split_ifs with h
    · left
      simp [SCORE_WEIGHTS]
    · right
      rfl
  · rw [analyze_url_additive url p hp hb hw, additiveChecks_fst]

theorem C5_amended_ip_rule_prefix_match_witness :
    urlparseE "http://10.20.30.40/x" =
      Except.ok ⟨"http", "10.20.30.40", "/x", "", "", ""⟩ ∧
    KNOWN_PHISHING_DOMAINS.contains (normalizeDomain "10.20.30.40") = false ∧
    KNOWN_SAFE_DOMAINS.any
      (fun sd => strEndsWith (normalizeDomain "10.20.30.40") sd) = false ∧
    ipCheck (normalizeDomain "10.20.30.40") = (30, ["使用IP位址而非網域名稱"]) := by
  refine ⟨rfl, rfl, rfl, ?_⟩
  exact ((C5_amended_ip_rule_prefix_match "http://10.20.30.40/x"
      ⟨"http", "10.20.30.40", "/x", "", "", ""⟩ rfl rfl rfl).1).mpr
    ⟨['1', '0'], ['2', '0'], ['3', '0'], ['4', '0'], [], by decide,
      by decide, by decide, by decide, by decide⟩

theorem C1_aggregate_clamp_and_verdict_witness :
    (aggregate (80, ["a"]) (50, ["b"])).1 = 100 ∧
    (aggregate (80, ["a"]) (50, ["b"])).2.1 = ["a", "b"] ∧
    (aggregate (80, ["a"]) (50, ["b"])).2.2 = Verdict.HIGH_RISK := by
  obtain ⟨h1, h2, h3, h4, h5, h6⟩ :=
    C1_aggregate_clamp_and_verdict 80 50 ["a"] ["b"]
  have hf : (aggregate (80, ["a"]) (50, ["b"])).1 = 100 := h1.trans (by decide)
  exact ⟨hf, h3, h4.mpr (by rw [hf]; decide)⟩
